import Mathlib

/-!
Verification development for the Magics plotting driver
(`climetlab/plotting/drivers/magics/__init__.py`).

Python values that flow through the value-resolution engine (`_apply`)
are modelled by the mutual inductive family `PyVal` / `PyList` / `PyDict`:
`PyDict` is an insertion-ordered association list, mirroring Python's
ordered `dict`; numbers are modelled as integers (all numeric literals
relevant here are exact).
-/

mutual

inductive PyVal where
  | none
  | bool (b : Bool)
  | num (n : Int)
  | str (s : String)
  | list (xs : PyList)
  | dict (xs : PyDict)
deriving DecidableEq, Repr

inductive PyList where
  | nil
  | cons (v : PyVal) (rest : PyList)
deriving DecidableEq, Repr

inductive PyDict where
  | nil
  | cons (k : String) (v : PyVal) (rest : PyDict)
deriving DecidableEq, Repr

end

/-- Membership test for a key, as Python's `k in d`. -/
def dmem (k : String) : PyDict → Bool
  | .nil => false
  | .cons k' _ rest => k' == k || dmem k rest

/-- First-occurrence lookup, as Python's `d.get(k)` / `d[k]`. -/
def dget : PyDict → String → Option PyVal
  | .nil, _ => Option.none
  | .cons k' v rest, k => if k' == k then some v else dget rest k

/-- Assignment `d[k] = v` on a Python dict: overwrite in place if the key exists
(the key keeps its insertion position), append otherwise. -/
def dset : PyDict → String → PyVal → PyDict
  | .nil, k, v => .cons k v .nil
  | .cons k' v' rest, k, v =>
    if k' == k then .cons k' v rest else .cons k' v' (dset rest k v)

/-- Removal `d.pop(k, None)` on a Python dict: drop the key if present. -/
def dpop : PyDict → String → PyDict
  | .nil, _ => .nil
  | .cons k' v' rest, k => if k' == k then rest else .cons k' v' (dpop rest k)

/-- Keys `list(d.keys())`, in insertion order. -/
def dkeys : PyDict → List String
  | .nil => []
  | .cons k _ rest => k :: dkeys rest

/-- Length `len(d)`. -/
def dlen : PyDict → Nat
  | .nil => 0
  | .cons _ _ rest => 1 + dlen rest

/-- Dict concatenation (used to build the rewritten `+`/`-` dictionary). -/
def dappend : PyDict → PyDict → PyDict
  | .nil, b => b
  | .cons k v rest, b => .cons k v (dappend rest b)

/-- Convenience: build a `PyDict` from a Lean list of pairs. -/
def listToD : List (String × PyVal) → PyDict
  | [] => .nil
  | (k, v) :: rest => .cons k v (listToD rest)

/-- Convenience: build a `PyList` from a Lean list. -/
def listToL : List PyVal → PyList
  | [] => .nil
  | v :: rest => .cons v (listToL rest)

mutual

/-- Nesting depth of a value (dicts/lists add one level).  Used to bound
the recursion of the resolution engine. -/
def depthV : PyVal → Nat
  | .none | .bool _ | .num _ | .str _ => 0
  | .list xs => 1 + depthL xs
  | .dict xs => 1 + depthD xs

def depthL : PyList → Nat
  | .nil => 0
  | .cons v rest => max (depthV v) (depthL rest)

def depthD : PyDict → Nat
  | .nil => 0
  | .cons _ v rest => max (depthV v) (depthD rest)

end

/-- Python `str(v)` for the values that can appear in a `clear` list.  The
`list`/`dict` cases are an approximation of Python's `repr`; the code
under study only ever formats strings here. -/
def pyStr : PyVal → String
  | .none => "None"
  | .bool true => "True"
  | .bool false => "False"
  | .num n => toString n
  | .str s => s
  | .list _ => "[...]"
  | .dict _ => "\x7b...\x7d"

/-!
## The directive model

Directive types are the `Action` subclasses defined in the module.  The
class hierarchy matters because `Action.update` dispatches on
`isinstance(self, action)`: `mgrib`, `mnetcdf` and `minput` derive from
`FieldAction`, which (like every other concrete type) derives from
`Action`.
-/

inductive ActionClass where
  | Action
  | mcont
  | mcoast
  | mmap
  | FieldAction
  | mgrib
  | mnetcdf
  | minput
  | mtable
  | mtext
  | msymb
  | output
deriving DecidableEq, Repr

/-- Method resolution order of each class (itself, then its bases),
mirroring the Python class declarations. -/
def mro : ActionClass → List ActionClass
  | .Action => [.Action]
  | .mcont => [.mcont, .Action]
  | .mcoast => [.mcoast, .Action]
  | .mmap => [.mmap, .Action]
  | .FieldAction => [.FieldAction, .Action]
  | .mgrib => [.mgrib, .FieldAction, .Action]
  | .mnetcdf => [.mnetcdf, .FieldAction, .Action]
  | .minput => [.minput, .FieldAction, .Action]
  | .mtable => [.mtable, .Action]
  | .mtext => [.mtext, .Action]
  | .msymb => [.msymb, .Action]
  | .output => [.output, .Action]

/-- Instance check `isinstance(self, action)` for an object of class `c` against class `t`. -/
def instanceOf (c t : ActionClass) : Bool := (mro c).contains t

/-- Lookup `globals()[name]` restricted to the `Action` classes of the module;
any other name raises (`KeyError`, or a later `TypeError` for the
non-class globals — neither is exercised by well-formed inputs). -/
def classOfName : String → Option ActionClass
  | "Action" => some .Action
  | "mcont" => some .mcont
  | "mcoast" => some .mcoast
  | "mmap" => some .mmap
  | "FieldAction" => some .FieldAction
  | "mgrib" => some .mgrib
  | "mnetcdf" => some .mnetcdf
  | "minput" => some .minput
  | "mtable" => some .mtable
  | "mtext" => some .mtext
  | "msymb" => some .msymb
  | "output" => some .output
  | _ => Option.none

/-- An `Action` instance: its (concrete) class plus its keyword-argument
bag `self.kwargs`. -/
structure MAction where
  cls : ActionClass
  kwargs : PyDict
deriving DecidableEq, Repr

/-- The class attribute `default_style` seen by an instance of class `c`:
`FieldAction.default_style = mcont(contour_automatic_setting="ecmwf",
legend=False)`, inherited by `mgrib`/`mnetcdf`/`minput`; `None` for
every other class (`Action.default_style = None`). -/
def default_style (c : ActionClass) : Option MAction :=
  if instanceOf c .FieldAction then
    some ⟨.mcont, listToD [("contour_automatic_setting", .str "ecmwf"),
                           ("legend", .bool false)]⟩
  else Option.none

/-- Errors raised by the Python code (both its own `Exception`s and the
built-in exceptions its operations can raise). -/
inductive PyErr where
  | assertionError
  | indexError
  | typeError
  | keyError
  | attributeError
  | lookupError
  | exceptionMixed
  | exceptionOverride
  | exceptionNoLayer
deriving DecidableEq, Repr

/-!
## `Action.update` (the patch protocol)

`update(self, action, values)` checks `isinstance(self, action)`; on a
match it walks `values.items()` in order, interpreting the key's first
character: `+k` sets `kwargs[k]`, `-k` pops `k`, `=k` sets `k` only when
absent (three independent `if` statements in the source — mutually
exclusive since they test the same single character); it then returns
`self`.  On a class mismatch it returns `None` without touching
`kwargs`.  The embedding passes the mutated bag explicitly.
-/

/-- The loop body of `Action.update`, for the whole `values` dict.
`k[0]` on an empty key raises `IndexError`. -/
def applyUpdateOps : PyDict → PyDict → Except PyErr PyDict
  | kw, .nil => .ok kw
  | kw, .cons k v rest =>
    match k.data with
    | [] => .error .indexError
    | c :: _ =>
      let kw1 := if c = '+' then dset kw (k.drop 1) v else kw
      let kw2 := if c = '-' then dpop kw1 (k.drop 1) else kw1
      let kw3 := if c = '=' then
                   (if dmem (k.drop 1) kw2 then kw2 else dset kw2 (k.drop 1) v)
                 else kw2
      applyUpdateOps kw3 rest

/-- One keyed patch operation, by modifier prefix: `+` add/overwrite,
`-` remove, `=` set-if-absent; any other key is ignored by the loop. -/
def patchOp (kw : PyDict) (k : String) (v : PyVal) : PyDict :=
  match k.data with
  | [] => kw
  | c :: _ =>
    if c = '+' then dset kw (k.drop 1) v
    else if c = '-' then dpop kw (k.drop 1)
    else if c = '=' then (if dmem (k.drop 1) kw then kw else dset kw (k.drop 1) v)
    else kw

/-- The patch operations applied in sequence. -/
def patchOps : PyDict → PyDict → PyDict
  | kw, .nil => kw
  | kw, .cons k v rest => patchOps (patchOp kw k v) rest

/-- Method `Action.update`: `.ok none` models `return None` (no match, bag
untouched); `.ok (some a)` models `return self` with the mutated bag.
`cls = none` models `isinstance(self, None)`, a `TypeError`. -/
def updateRun (a : MAction) (cls : Option ActionClass) (values : PyDict) :
    Except PyErr (Option MAction) :=
  match cls with
  | Option.none => .error .typeError
  | some c =>
    if instanceOf a.cls c then
      match applyUpdateOps a.kwargs values with
      | .error e => .error e
      | .ok kw => .ok (some ⟨a.cls, kw⟩)
    else .ok Option.none

/-- Method `mmap.page_ratio`: `(north - south) / (east - west)` over the
subpage extent parameters, with full-world defaults.  Floats are
modelled as exact rationals; a non-numeric stored value (`TypeError`)
or a zero denominator (`ZeroDivisionError`) yields `none`. -/
def numOr (kw : PyDict) (k : String) (dflt : Int) : Option ℚ :=
  match dget kw k with
  | Option.none => some (dflt : ℚ)
  | some (.num n) => some (n : ℚ)
  | some _ => Option.none

def page_ratio (a : MAction) : Option ℚ :=
  match numOr a.kwargs "subpage_lower_left_latitude" (-90),
        numOr a.kwargs "subpage_lower_left_longitude" (-180),
        numOr a.kwargs "subpage_upper_right_latitude" 90,
        numOr a.kwargs "subpage_upper_right_longitude" 180 with
  | some south, some west, some north, some east =>
    if east - west = 0 then Option.none else some ((north - south) / (east - west))
  | _, _, _, _ => Option.none

/-!
## Type inference over the Parameter Index (`_apply`, dict case)

`MAGICS_KEYS` is built from the external `magics.yaml` vocabulary table
(parameter name → set of directive-type names declaring it); the
embedding takes it as a parameter `idx : String → List String`, the list
standing for the set.  The scoring loop walks **every** key of the
dictionary: a key whose first character is not alphabetic counts as
"special" and is scored by its tail; a (stripped) key mapping to exactly
one type bumps that type's score.  Candidates are then sorted ascending
by `(score, name)` (Python tuple order) and the first one is taken.
-/

/-- The `defaultdict(int)` bump `scores[a] += 1`, keeping first-insertion
order of the keys. -/
def bump : List (String × Nat) → String → List (String × Nat)
  | [], a => [(a, 1)]
  | (k, n) :: rest, a => if k = a then (k, n + 1) :: rest else (k, n) :: bump rest a

/-- Assoc lookup in the scores with the `defaultdict` default `0`. -/
def lookupN : List (String × Nat) → String → Nat
  | [], _ => 0
  | (k, n) :: rest, a => if k = a then n else lookupN rest a

/-- The scoring loop of `_apply`: accumulates `scores` and the count
`special` of keys whose first character is not alphabetic (Python
`str.isalpha`; parameter keys are ASCII).  `param[0]` on an empty key
raises `IndexError`. -/
def stripScoreAux (idx : String → List String) :
    List String → List (String × Nat) → Nat →
    Except PyErr (List (String × Nat) × Nat)
  | [], scores, special => .ok (scores, special)
  | param :: rest, scores, special =>
    match param.data with
    | [] => .error .indexError
    | c :: _ =>
      let sp := if c.isAlpha then special else special + 1
      let p := if c.isAlpha then param else param.drop 1
      let scores' := match idx p with
        | [a] => bump scores a
        | _ => scores
      stripScoreAux idx rest scores' sp

def stripScore (idx : String → List String) (keys : List String) :
    Except PyErr (List (String × Nat) × Nat) :=
  stripScoreAux idx keys [] 0

/-- A key's stripped form (the key itself when its head is alphabetic). -/
def stripKey (k : String) : String :=
  match k.data with
  | [] => k
  | c :: _ => if c.isAlpha then k else k.drop 1

/-- Returns `some t` when the (stripped) key maps to exactly the one type `t`
in the Parameter Index, `none` otherwise. -/
def scoreKey (idx : String → List String) (k : String) : Option String :=
  match idx (stripKey k) with
  | [a] => some a
  | _ => Option.none

/-- Whether a key counts towards `special` (first character not
alphabetic). -/
def isSpecialKey (k : String) : Bool :=
  match k.data with
  | [] => false
  | c :: _ => !c.isAlpha

def specialCount (keys : List String) : Nat := keys.countP isSpecialKey

/-- Python's ascending tuple order on the `(score, name)` pairs fed to
`sorted`. -/
def pairLe (a b : Nat × String) : Prop :=
  a.1 < b.1 ∨ (a.1 = b.1 ∧ a.2 ≤ b.2)

instance : DecidableRel pairLe := fun a b =>
  inferInstanceAs (Decidable (a.1 < b.1 ∨ (a.1 = b.1 ∧ a.2 ≤ b.2)))

instance : IsTotal (Nat × String) pairLe where
  total a b := by
    rcases Nat.lt_trichotomy a.1 b.1 with h | h | h
    · exact Or.inl (Or.inl h)
    · rcases le_total a.2 b.2 with h2 | h2
      · exact Or.inl (Or.inr ⟨h, h2⟩)
      · exact Or.inr (Or.inr ⟨h.symm, h2⟩)
    · exact Or.inr (Or.inl h)

instance : IsTrans (Nat × String) pairLe where
  trans a b c hab hbc := by
    rcases hab with h1 | ⟨e1, l1⟩
    · rcases hbc with h2 | ⟨e2, _⟩
      · exact Or.inl (h1.trans h2)
      · exact Or.inl (e2 ▸ h1)
    · rcases hbc with h2 | ⟨e2, l2⟩
      · exact Or.inl (e1 ▸ h2)
      · exact Or.inr ⟨e1.trans e2, l1.trans l2⟩

/-- Python `sorted((v, k) for k, v in scores.items())`. -/
def swapAll (scores : List (String × Nat)) : List (Nat × String) :=
  scores.map (fun e => (e.2, e.1))

def sortPairs (l : List (Nat × String)) : List (Nat × String) :=
  List.insertionSort pairLe l

/-- The `LOG.warning("Cannot establish Magics action ...")` diagnostic:
emitted when no candidate scored. -/
def noActionWarn (best : List (Nat × String)) : Bool := best.isEmpty

/-- The `LOG.warning("... it could be %s or %s")` diagnostic: emitted
when the two first ranked entries tie on score. -/
def ambiguousWarn : List (Nat × String) → Bool
  | a :: b :: _ => a.1 == b.1
  | _ => false

/-- Line `if len(best) > 0: action = globals()[best[0][1]]` — the inferred
type overrides the `action` argument; a name with no matching global
raises `KeyError`. -/
def effClass (action : Option ActionClass) (best : List (Nat × String)) :
    Except PyErr (Option ActionClass) :=
  match best.head? with
  | Option.none => .ok action
  | some (_, name) =>
    match classOfName name with
    | Option.none => .error .keyError
    | some c => .ok (some c)

/-- Scoring followed by type selection (the value of `action` after the
`if len(best) > 0` line), exposed for stating claims. -/
def effAfterScore (idx : String → List String) (keys : List String)
    (action : Option ActionClass) : Except PyErr (Option ActionClass) :=
  match stripScore idx keys with
  | .error e => .error e
  | .ok (scores, _) => effClass action (sortPairs (swapAll scores))

/-!
## The resolution engine `_apply`

The patch target can be an `Action` or (from `Driver.style`) a `Layer`,
whose `update` delegates to its style directive (`None.update` /
`Layer._style = None` give `AttributeError`).
-/

structure LayerState where
  data : Option MAction
  style : Option MAction
deriving DecidableEq, Repr

inductive Target where
  | act (a : MAction)
  | layer (l : LayerState)
deriving DecidableEq, Repr

/-- Call `target.update(action, value)` inside `_apply`
(`target = None` raises `AttributeError`). -/
def targetUpdate (tgt : Option Target) (cls : Option ActionClass)
    (values : PyDict) : Except PyErr (Option MAction) :=
  match tgt with
  | Option.none => .error .attributeError
  | some (.act a) => updateRun a cls values
  | some (.layer l) =>
    match l.style with
    | Option.none => .error .attributeError
    | some s => updateRun s cls values

/-- Construction `action(**value)` (`action = None` raises `TypeError`). -/
def constructA (cls : Option ActionClass) (d : PyDict) :
    Except PyErr (Option MAction) :=
  match cls with
  | Option.none => .error .typeError
  | some c => .ok (some ⟨c, d⟩)

/-- The flat-dictionary case of `_apply` (no grouping key): score the
keys, maybe re-infer `action`, then either patch the target (all-special
keys) or construct a new directive. -/
def applyFlatDict (idx : String → List String) (d : PyDict)
    (action : Option ActionClass) (tgt : Option Target) :
    Except PyErr (Option MAction) :=
  match stripScore idx (dkeys d) with
  | .error e => .error e
  | .ok (scores, special) =>
    match effClass action (sortPairs (swapAll scores)) with
    | .error e => .error e
    | .ok action =>
      if special ≠ 0 then
        if special ≠ dlen d then .error .exceptionMixed
        else
          match targetUpdate tgt action d with
          | .error e => .error e
          | .ok (some r) => .ok (some r)
          | .ok Option.none => .error .exceptionOverride
      else constructA action d

/-- The preset store behind `get_data_entry(collection, name).data`:
`Modelled from the spec:` the catalog that resolves a preset name within
a namespace is not part of this file's source; per §6 it returns a
mapping `{ directiveTypeName: parameterDict }`, modelled as the `magics`
dict the string case of `_apply` reads (`none` = lookup failure). -/
def Store : Type := String → String → Option PyDict

/-- The string (preset-name) case of `_apply`: look up the entry, check
it declares exactly one action (`assert len(actions) == 1`), resolve the
action class by name, and construct it with the entry's parameters. -/
def applyStr (store : Store) (collection : Option String) (s : String) :
    Except PyErr (Option MAction) :=
  match collection with
  | Option.none => .error .lookupError
  | some ns =>
    match store ns s with
    | Option.none => .error .lookupError
    | some magics =>
      match dkeys magics with
      | [name] =>
        match classOfName name with
        | Option.none => .error .keyError
        | some c =>
          match dget magics name with
          | some (.dict params) => .ok (some ⟨c, params⟩)
          | _ => .error .typeError
      | _ => .error .assertionError

/-- Keys of `value.get(addKey, {})` rewritten to the `+` prefix form. -/
def mapAdds : PyDict → PyDict
  | .nil => .nil
  | .cons k v rest => .cons ("+" ++ k) v (mapAdds rest)

/-- Entries of `value.get(removeKey, [])` rewritten to `-`-prefixed keys
with `None` values. -/
def mapClears : PyList → PyDict
  | .nil => .nil
  | .cons e rest => .cons ("-" ++ pyStr e) .none (mapClears rest)

/-- The grouping-form rewrite shared by the `set`/`clear` and `+`/`-`
branches of `_apply`.  A present grouping key whose value has the wrong
shape raises (`.items()` on a non-dict, iterating a non-list — the
latter approximated, Python would also iterate strings or dicts). -/
def groupRewrite (d : PyDict) (addKey removeKey : String) :
    Except PyErr PyDict :=
  match dget d addKey with
  | some (.dict adds) =>
    match dget d removeKey with
    | some (.list clears) => .ok (dappend (mapAdds adds) (mapClears clears))
    | Option.none => .ok (mapAdds adds)
    | some _ => .error .typeError
  | Option.none =>
    match dget d removeKey with
    | some (.list clears) => .ok (mapClears clears)
    | Option.none => .ok .nil
    | some _ => .error .typeError
  | some _ => .error .attributeError

/-- Function `_apply`, with an explicit fuel argument so that every definition
stays structurally recursive and computable; the wrapper `_apply` below
always supplies sufficient fuel (`applyFuel_congr`).  The fuel-exhausted
case is unreachable from the wrapper. -/
def applyFuel (idx : String → List String) (store : Store) :
    Nat → Option String → PyVal → PyVal → Option ActionClass →
    Option Target → Except PyErr (Option MAction)
  | 0, _, _, _, _, _ => .error .assertionError
  | _ + 1, _, .none, _, _, _ => .ok Option.none
  | _ + 1, _, .bool false, _, _, _ => .ok Option.none
  | fuel + 1, coll, .bool true, dflt, action, tgt =>
    -- `assert default is not True`, then recurse with the default as the
    -- value and `default=None`.
    if dflt = .bool true then .error .assertionError
    else applyFuel idx store fuel coll dflt .none action tgt
  | fuel + 1, coll, .dict d, dflt, action, tgt =>
    if dmem "set" d || dmem "clear" d then
      match groupRewrite d "set" "clear" with
      | .error e => .error e
      | .ok nv => applyFuel idx store fuel coll (.dict nv) dflt action tgt
    else if dmem "+" d || dmem "-" d then
      match groupRewrite d "+" "-" with
      | .error e => .error e
      | .ok nv => applyFuel idx store fuel coll (.dict nv) dflt action tgt
    else applyFlatDict idx d action tgt
  | _ + 1, coll, .str s, _, _, _ => applyStr store coll s
  | _ + 1, _, .num _, _, _, _ => .error .assertionError
  | _ + 1, _, .list _, _, _, _ => .error .assertionError

/-- Fuel sufficient for `applyFuel`: one step per nesting level of the
value, plus the levels reachable through the `True` → default step. -/
def measureA (value dflt : PyVal) : Nat := depthV value + 2 * depthV dflt + 2

/-- Wrapper `_apply(value=value, collection=coll, action=action, default=dflt,
target=tgt)`.  Python's keyword defaults are `collection=None`,
`action=None`, `default=True`, `target=None`; call sites pass them
explicitly. -/
def applyV (idx : String → List String) (store : Store)
    (coll : Option String) (value dflt : PyVal) (action : Option ActionClass)
    (tgt : Option Target) : Except PyErr (Option MAction) :=
  applyFuel idx store (measureA value dflt) coll value dflt action tgt

/-!
## The pipeline Driver

Value-semantics embedding of the `Driver` state.  The temp-file list and
the options collaborator are external and not part of the state; fields
keep the Python names without the leading underscore.
-/

structure DriverState where
  projection : Option MAction
  background : Option MAction
  foreground : Option MAction
  layers : List LayerState
  width_cm : ℚ
  height_cm : ℚ
  page_ratio_v : ℚ
  grid : Option MAction
  rivers : Option MAction
  cities : Option MAction
  borders : Option MAction
  legend : Option MAction
  title : Option MAction
deriving DecidableEq, Repr

/-- The field assignments of `Driver.__init__` other than the
`background(True)` / `foreground(True)` calls (order of assignment is
immaterial under value semantics). -/
def baseDriver : DriverState where
  projection := Option.none
  background := Option.none
  foreground := Option.none
  layers := []
  width_cm := 10
  height_cm := 10
  page_ratio_v := 1
  grid := Option.none
  rivers := Option.none
  cities := Option.none
  borders := Option.none
  legend := Option.none
  title := Option.none

/-- Method `Driver.background`: resolve against the `layers` collection with
default preset `"default-background"`, patch target the current slot. -/
def driverBackground (idx : String → List String) (store : Store)
    (st : DriverState) (v : PyVal) : Except PyErr DriverState :=
  match applyV idx store (some "layers") v (.str "default-background")
        Option.none (st.background.map Target.act) with
  | .error e => .error e
  | .ok r => .ok { st with background := r }

/-- Method `Driver.foreground`, same with `"default-foreground"`. -/
def driverForeground (idx : String → List String) (store : Store)
    (st : DriverState) (v : PyVal) : Except PyErr DriverState :=
  match applyV idx store (some "layers") v (.str "default-foreground")
        Option.none (st.foreground.map Target.act) with
  | .error e => .error e
  | .ok r => .ok { st with foreground := r }

/-- Constructor `Driver.__init__`: the fresh state after `background(True)` and
`foreground(True)`. -/
def driverInit (idx : String → List String) (store : Store) :
    Except PyErr DriverState := do
  let st ← driverBackground idx store baseDriver (.bool true)
  driverForeground idx store st (.bool true)

/-- Method `Driver._push_layer`: append a `Layer(data)`, whose style starts as
the data directive's class-level `default_style`. -/
def push_layer (st : DriverState) (data : MAction) : DriverState :=
  { st with layers := st.layers ++ [⟨some data, default_style data.cls⟩] }

/-- Method `Driver.style`: resolve against the **last** layer (which is also the
patch target) and store the result as that layer's style; with no layer,
raise `No current data layer`. -/
def driverStyle (idx : String → List String) (store : Store)
    (st : DriverState) (v : PyVal) : Except PyErr DriverState :=
  match st.layers.getLast? with
  | Option.none => .error .exceptionNoLayer
  | some last =>
    match applyV idx store (some "styles") v (.bool true) Option.none
          (some (Target.layer last)) with
    | .error e => .error e
    | .ok r => .ok { st with layers := st.layers.dropLast ++ [{ last with style := r }] }

/-- The fixed `mtable` directive built by `Driver.plot_csv`. -/
def mtableCsv (path : String) : MAction :=
  ⟨.mtable, listToD [("table_filename", .str path),
                     ("table_latitude_variable", .str "1"),
                     ("table_longitude_variable", .str "2"),
                     ("table_value_variable", .str "3"),
                     ("table_header_row", .num 0),
                     ("table_variable_identifier_type", .str "index")]⟩

/-- Method `Driver.plot_csv(path, variable)`: push the fixed table layer, then
`self.style("default-style-observations")`.  (`variable` is a Lean
keyword, hence the parameter name `var`; the body never reads it, as in
the source.) -/
def plot_csv (idx : String → List String) (store : Store)
    (st : DriverState) (path var : String) : Except PyErr DriverState :=
  driverStyle idx store (push_layer st (mtableCsv path))
    (.str "default-style-observations")

/-- Method `Layer.add_action(actions)`: append the data then the style
directive, each only if set (directives are truthy, `None` is not). -/
def addActionL (l : LayerState) (m : List (Option MAction)) :
    List (Option MAction) :=
  let m1 := if l.data.isSome then m ++ [l.data] else m
  if l.style.isSome then m1 ++ [l.style] else m1

/-- Method `Driver.macro` (named `macroSeq` here): projection, background, the
layers' directives, then the decoration slots, with `None` entries
dropped by the final comprehension. -/
def macroSeq (st : DriverState) : List MAction :=
  let m := [st.projection, st.background]
  let m := st.layers.foldl (fun acc l => addActionL l acc) m
  let m := m ++ [st.rivers, st.borders, st.cities, st.foreground,
                 st.grid, st.legend, st.title]
  m.filterMap id

/-!
## The bounding-box patch in `Driver.show`

`BoundingBox` is an external value type; `add_margins` is `Modelled from
the spec:` "expand it by a margin" (climetlab.core.bbox is outside this
file), as a symmetric widening of the box by `m` on each side.
-/

structure BBox where
  north : Int
  west : Int
  south : Int
  east : Int
deriving DecidableEq, Repr

def add_margins (b : BBox) (m : Int) : BBox :=
  ⟨b.north + m, b.west - m, b.south - m, b.east + m⟩

/-- The literal dictionary `show` passes to `_apply` to patch the
projection's extent, in source order. -/
def bboxPatchDict (b : BBox) : PyDict :=
  listToD [("=subpage_upper_right_longitude", .num b.east),
           ("=subpage_upper_right_latitude", .num b.north),
           ("=subpage_lower_left_latitude", .num b.south),
           ("=subpage_lower_left_longitude", .num b.west)]

/-- Lines 497–508 of `Driver.show`: expand the accumulated box by the
margins option, then patch the projection through `_apply` with
`action=mmap` (no `collection`/`default` arguments, hence Python's
defaults `None`/`True`). -/
def showBboxStep (idx : String → List String) (store : Store)
    (proj : Option MAction) (bb : BBox) (margins : Int) :
    Except PyErr (Option MAction) :=
  let b := add_margins bb margins
  applyV idx store Option.none (.dict (bboxPatchDict b)) (.bool true)
    (some .mmap) (proj.map Target.act)

/-- Set-if-absent on one extent parameter, the semantics of a `=`-keyed
patch operation. -/
def sia (kw : PyDict) (k : String) (v : Int) : PyDict :=
  if dmem k kw then kw else dset kw k (.num v)

/-- The projection's kwargs after the four set-if-absent extent patches,
in the order `show` lists them. -/
def siaChain (kw : PyDict) (b : BBox) : PyDict :=
  sia (sia (sia (sia kw "subpage_upper_right_longitude" b.east)
                "subpage_upper_right_latitude" b.north)
           "subpage_lower_left_latitude" b.south)
      "subpage_lower_left_longitude" b.west

/-!
## Concrete fixtures for witnesses and counterexamples
-/

/-- The list fragment a `Layer.add_action` slot contributes to the
sequence: the slot itself when set (used to state the assembly order). -/
def optPart (o : Option MAction) : List (Option MAction) :=
  if o.isSome then [o] else []

/-- The full-world extent of spec Scenario D, as stored kwargs. -/
def fullWorldKwargs : PyDict :=
  listToD [("subpage_upper_right_latitude", .num 90),
           ("subpage_lower_left_latitude", .num (-90)),
           ("subpage_upper_right_longitude", .num 180),
           ("subpage_lower_left_longitude", .num (-180))]

/-- An index under which no parameter maps to exactly one type. -/
def idxEmpty : String → List String := fun _ => []

/-- An index mapping only `foo` (and nothing else) to the single type
`mcoast`. -/
def idxFoo : String → List String := fun p => if p = "foo" then ["mcoast"] else []

/-- An empty preset store. -/
def storeEmpty : Store := fun _ _ => Option.none

/-- A store with the three presets the Driver claims exercise. -/
def storeDefaults : Store := fun ns name =>
  if ns = "layers" ∧ name = "default-background" then
    some (listToD [("mcoast", .dict (listToD [("map_coastline_land_shade", .bool true)]))])
  else if ns = "layers" ∧ name = "default-foreground" then
    some (listToD [("mcoast", .dict (listToD [("map_grid", .bool false)]))])
  else if ns = "styles" ∧ name = "default-style-observations" then
    some (listToD [("msymb", .dict (listToD [("symbol_type", .str "marker")]))])
  else Option.none

/-!
## Lemmas: dictionaries and the patch protocol

`PyDict`/`PyList` sit inside a mutual family, so the `induction` tactic
cannot use their automatically generated recursor; the one-sorted
induction principles below recurse only along the spine.
-/

theorem pydictInduction {P : PyDict → Prop} (hnil : P PyDict.nil)
    (hcons : ∀ k v rest, P rest → P (PyDict.cons k v rest)) :
    ∀ d : PyDict, P d
  | .nil => hnil
  | .cons k v rest => hcons k v rest (pydictInduction hnil hcons rest)

theorem pylistInduction {P : PyList → Prop} (hnil : P PyList.nil)
    (hcons : ∀ v rest, P rest → P (PyList.cons v rest)) :
    ∀ l : PyList, P l
  | .nil => hnil
  | .cons v rest => hcons v rest (pylistInduction hnil hcons rest)


theorem dget_dset_ne (kw : PyDict) (k q : String) (v : PyVal) (h : q ≠ k) :
    dget (dset kw k v) q = dget kw q := by
  have hkq : (k == q) = false := beq_eq_false_iff_ne.mpr (Ne.symm h)
  induction kw using pydictInduction with
  | hnil =>
    simp only [dset, dget, hkq]
    rfl
  | hcons k' v' rest ih =>
    by_cases hk : k' = k
    · subst hk
      simp only [dset, beq_self_eq_true, if_pos, dget, hkq]
      rfl
    · have hkk : (k' == k) = false := beq_eq_false_iff_ne.mpr hk
      simp only [dset, hkk, Bool.false_eq_true, if_neg, ite_false, dget]
      by_cases hq : k' = q
      · simp [hq]
      · have h2 : (k' == q) = false := beq_eq_false_iff_ne.mpr hq
        simp [h2, ih]

theorem dmem_dset_of_dmem (kw : PyDict) (k q : String) (v : PyVal)
    (h : dmem q kw = true) : dmem q (dset kw k v) = true := by
  induction kw using pydictInduction with
  | hnil => simp [dmem] at h
  | hcons k' v' rest ih =>
    simp only [dmem, Bool.or_eq_true, beq_iff_eq] at h
    by_cases hk : k' = k
    · subst hk
      simp only [dset, beq_self_eq_true, if_pos, dmem, Bool.or_eq_true, beq_iff_eq]
      exact h
    · simp only [dset, beq_iff_eq, hk, if_neg, dmem, Bool.or_eq_true, beq_iff_eq]
      rcases h with h | h
      · exact Or.inl h
      · exact Or.inr (ih h)

theorem dmem_eq_isSome_dget (kw : PyDict) (q : String) :
    dmem q kw = (dget kw q).isSome := by
  induction kw using pydictInduction with
  | hnil => simp [dmem, dget]
  | hcons k' v' rest ih =>
    simp only [dmem, dget, beq_iff_eq]
    by_cases hq : k' = q <;> simp [hq, ih]

theorem dget_sia_of_dmem (kw : PyDict) (k q : String) (v : Int)
    (h : dmem q kw = true) : dget (sia kw k v) q = dget kw q := by
  unfold sia
  by_cases hm : dmem k kw
  · simp [hm]
  · have hqk : q ≠ k := fun e => hm (e ▸ h)
    simp only [hm, Bool.false_eq_true, if_neg, ite_false]
    exact dget_dset_ne kw k q (.num v) hqk

theorem dmem_sia_of_dmem (kw : PyDict) (k q : String) (v : Int)
    (h : dmem q kw = true) : dmem q (sia kw k v) = true := by
  unfold sia
  by_cases hm : dmem k kw
  · simpa [hm]
  · simp only [hm, Bool.false_eq_true, if_neg, ite_false]
    exact dmem_dset_of_dmem kw k q (.num v) h

/-- The three sequential `if` statements of the update loop body coincide
with the single per-prefix operation `patchOp`. -/
theorem updateBody_eq_patchOp (kw : PyDict) (k : String) (v : PyVal)
    (c : Char) (rest : List Char) (hk : k.data = c :: rest) :
    (let kw1 := if c = '+' then dset kw (k.drop 1) v else kw
     let kw2 := if c = '-' then dpop kw1 (k.drop 1) else kw1
     if c = '=' then
       (if dmem (k.drop 1) kw2 then kw2 else dset kw2 (k.drop 1) v)
     else kw2) = patchOp kw k v := by
  unfold patchOp
  rw [hk]
  by_cases h1 : c = '+'
  · subst h1; simp
  · by_cases h2 : c = '-'
    · subst h2; simp
    · by_cases h3 : c = '='
      · subst h3; simp
      · simp [h1, h2, h3]

/-- With no empty key, the literal update loop computes exactly the
sequential patch semantics. -/
theorem applyUpdateOps_eq_patchOps (values : PyDict) :
    ∀ kw : PyDict, (∀ k ∈ dkeys values, k ≠ "") →
    applyUpdateOps kw values = .ok (patchOps kw values) := by
  induction values using pydictInduction with
  | hnil => intro kw _; rfl
  | hcons k v rest ih =>
    intro kw hk
    have hne : k ≠ "" := hk k (by simp [dkeys])
    have hdata : k.data ≠ [] := fun h => hne (by
      cases k
      simp_all)
    rcases hd : k.data with _ | ⟨c, cs⟩
    · exact absurd hd hdata
    · show applyUpdateOps kw (.cons k v rest) = _
      unfold applyUpdateOps
      rw [hd]
      simp only []
      rw [updateBody_eq_patchOp kw k v c cs hd]
      show applyUpdateOps (patchOp kw k v) rest = .ok (patchOps (patchOp kw k v) rest)
      exact ih (patchOp kw k v) (fun k' h' => hk k' (by simp [dkeys]; right; simpa [dkeys] using h'))

/-- C5 — `Action.update`: a class mismatch returns the `None` sentinel and
produces no mutated directive (the parameter bag is untouched); a class
match applies the add / remove / set-if-absent operations in sequence and
returns the same directive (same class, patched bag).
Claim: "Directive.patch (Action.update) applied to a directive whose type
does not match the target type returns the no-match sentinel (null) and
leaves the directive's parameter bag completely unchanged; when the type
matches, it applies add (unconditional set), remove (delete if present)
and set-if-absent (set only when the key is absent) operations in
sequence and returns the same directive instance." -/
theorem update_patch_protocol (a : MAction) (c : ActionClass) (values : PyDict) :
    (instanceOf a.cls c = false → updateRun a (some c) values = .ok Option.none)
    ∧ ((∀ k ∈ dkeys values, k ≠ "") → instanceOf a.cls c = true →
       updateRun a (some c) values = .ok (some ⟨a.cls, patchOps a.kwargs values⟩)) := by
  constructor
  · intro h
    unfold updateRun
    simp [h]
  · intro hk h
    unfold updateRun
    rw [applyUpdateOps_eq_patchOps values a.kwargs hk]
    simp [h]

/-- Witness for `update_patch_protocol`: a `mcoast` directive patched as
`mmap` signals no match; patched as `Action` (its base class) it applies
`+fill`, `-old`, `=colour` in sequence. -/
theorem update_patch_protocol_witness :
    updateRun ⟨.mcoast, listToD [("old", .num 1), ("colour", .str "blue")]⟩
      (some .mmap) (listToD [("+fill", .str "red")]) = .ok Option.none
    ∧ updateRun ⟨.mcoast, listToD [("old", .num 1), ("colour", .str "blue")]⟩
      (some .Action)
      (listToD [("+fill", .str "red"), ("-old", .none), ("=colour", .str "green")])
      = .ok (some ⟨.mcoast, listToD [("colour", .str "blue"), ("fill", .str "red")]⟩) := by
  constructor
  · exact (update_patch_protocol ⟨.mcoast, listToD [("old", .num 1), ("colour", .str "blue")]⟩
      .mmap (listToD [("+fill", .str "red")])).1 (by decide)
  · have h := (update_patch_protocol ⟨.mcoast, listToD [("old", .num 1), ("colour", .str "blue")]⟩
      .Action (listToD [("+fill", .str "red"), ("-old", .none), ("=colour", .str "green")])).2
      (by decide) (by decide)
    rw [h]
    rfl

/-!
## C8 — page ratio
-/

/-- C8 (amended) — `mmap.page_ratio` is `(north - south) / (east - west)`
over the four subpage extent parameters when they are set, and falls back
to the full-world defaults `north=90, south=-90, east=180, west=-180` for
parameters that are absent; with the full-world extent this gives `0.5`
(not `1.0` as the claim's "in particular" asserts — see the
counterexample). -/
theorem page_ratio_extent (kw : PyDict) (cls : ActionClass) (n s e w : Int) :
    (dget kw "subpage_lower_left_latitude" = some (.num s) →
     dget kw "subpage_lower_left_longitude" = some (.num w) →
     dget kw "subpage_upper_right_latitude" = some (.num n) →
     dget kw "subpage_upper_right_longitude" = some (.num e) →
     (e : ℚ) - w ≠ 0 →
     page_ratio ⟨cls, kw⟩ = some (((n : ℚ) - s) / ((e : ℚ) - w)))
    ∧ (dget kw "subpage_lower_left_latitude" = Option.none →
       dget kw "subpage_lower_left_longitude" = Option.none →
       dget kw "subpage_upper_right_latitude" = Option.none →
       dget kw "subpage_upper_right_longitude" = Option.none →
       page_ratio ⟨cls, kw⟩ = some (1 / 2)) := by
  constructor
  · intro hs hw hn he hz
    unfold page_ratio numOr
    simp only [hs, hw, hn, he]
    rw [if_neg hz]
  · intro hs hw hn he
    unfold page_ratio numOr
    simp only [hs, hw, hn, he]
    norm_num

/-- Witness for `page_ratio_extent`: an explicit extent giving ratio `1`,
and the empty bag giving the full-world default ratio `1/2`. -/
theorem page_ratio_extent_witness :
    page_ratio ⟨.mmap, listToD [("subpage_lower_left_latitude", .num (-30)),
                                ("subpage_lower_left_longitude", .num (-50)),
                                ("subpage_upper_right_latitude", .num 60),
                                ("subpage_upper_right_longitude", .num 40)]⟩ = some 1
    ∧ page_ratio ⟨.mmap, PyDict.nil⟩ = some (1 / 2) := by
  constructor
  · have h := (page_ratio_extent
      (listToD [("subpage_lower_left_latitude", .num (-30)),
                ("subpage_lower_left_longitude", .num (-50)),
                ("subpage_upper_right_latitude", .num 60),
                ("subpage_upper_right_longitude", .num 40)]) .mmap 60 (-30) 40 (-50)).1
      rfl rfl rfl rfl (by norm_num)
    rw [h]
    norm_num
  · exact (page_ratio_extent PyDict.nil .mmap 0 0 0 0).2 rfl rfl rfl rfl

/-- C8 counterexample — the claim asserts the full-world extent
`north=90, south=-90, east=180, west=-180` yields page ratio `1.0`; the
code's formula gives `(90 - (-90)) / (180 - (-180)) = 0.5`. -/
theorem page_ratio_full_world_counterexample :
    page_ratio ⟨.mmap, fullWorldKwargs⟩ = some (1 / 2)
    ∧ (1 / 2 : ℚ) ≠ 1 := by
  constructor
  · have h1 : dget fullWorldKwargs "subpage_lower_left_latitude"
        = some (.num (-90)) := rfl
    have h2 : dget fullWorldKwargs "subpage_lower_left_longitude"
        = some (.num (-180)) := rfl
    have h3 : dget fullWorldKwargs "subpage_upper_right_latitude"
        = some (.num 90) := rfl
    have h4 : dget fullWorldKwargs "subpage_upper_right_longitude"
        = some (.num 180) := rfl
    unfold page_ratio numOr
    simp only [h1, h2, h3, h4]
    norm_num
  · norm_num

/-!
## C2 — assembly order of the directive sequence
-/

theorem addActionL_eq (l : LayerState) (acc : List (Option MAction)) :
    addActionL l acc = acc ++ (optPart l.data ++ optPart l.style) := by
  unfold addActionL optPart
  cases l.data <;> cases l.style <;> simp

theorem foldl_addActionL (ls : List LayerState) :
    ∀ m : List (Option MAction),
    ls.foldl (fun acc l => addActionL l acc) m
      = m ++ ls.flatMap (fun l => optPart l.data ++ optPart l.style) := by
  induction ls with
  | nil => intro m; simp
  | cons l rest ih =>
    intro m
    rw [List.foldl_cons, ih, addActionL_eq]
    simp [List.flatMap_cons, List.append_assoc]

theorem filterMap_optPart (o : Option MAction) :
    (optPart o).filterMap id = o.toList := by
  cases o <;> simp [optPart]

theorem filterMap_two (d s : Option MAction) :
    ([d, s] : List (Option MAction)).filterMap id = d.toList ++ s.toList := by
  cases d <;> cases s <;> simp

/-- C2 — `Driver.macro` assembles exactly: projection, background, each
layer's data directive followed by its style directive in insertion
order, then rivers, borders, cities, foreground, grid, legend, title,
with `None` entries omitted and no other reordering; being a function of
the `DriverState` alone, the sequence is deterministic in that state.
Claim: "For every Driver state, the assembled directive sequence
(Driver.macro) is exactly: projection, background, then for each layer in
insertion order its data directive followed by its style directive, then
rivers, borders, cities, foreground, grid, legend, title, with every null
entry omitted and no other reordering; so the sequence is a pure
deterministic function of the Driver state." -/
theorem macro_assembly (st : DriverState) :
    macroSeq st
      = (([st.projection, st.background]
          ++ st.layers.flatMap (fun l => [l.data, l.style])
          ++ [st.rivers, st.borders, st.cities, st.foreground,
              st.grid, st.legend, st.title]) : List (Option MAction)).filterMap id := by
  unfold macroSeq
  dsimp only
  rw [foldl_addActionL]
  simp only [List.filterMap_append]
  congr 1
  · congr 1
    induction st.layers with
    | nil => simp
    | cons l rest ih =>
      simp only [List.flatMap_cons, List.filterMap_append, ih, filterMap_optPart,
        filterMap_two, List.append_assoc]

/-!
## Lemmas: depth bounds and fuel-irrelevance of the resolution engine
-/

theorem depthD_dappend (a b : PyDict) :
    depthD (dappend a b) = max (depthD a) (depthD b) := by
  induction a using pydictInduction with
  | hnil => simp [dappend, depthD]
  | hcons k v rest ih => simp [dappend, depthD, ih, Nat.max_assoc]

theorem depthD_mapAdds (d : PyDict) : depthD (mapAdds d) = depthD d := by
  induction d using pydictInduction with
  | hnil => rfl
  | hcons k v rest ih => simp [mapAdds, depthD, ih]

theorem depthD_mapClears (l : PyList) : depthD (mapClears l) = 0 := by
  induction l using pylistInduction with
  | hnil => rfl
  | hcons v rest ih => simp [mapClears, depthD, depthV, ih]

theorem depthV_dget_le (d : PyDict) (k : String) (v : PyVal)
    (h : dget d k = some v) : depthV v ≤ depthD d := by
  induction d using pydictInduction with
  | hnil => simp [dget] at h
  | hcons k' v' rest ih =>
    rw [dget] at h
    by_cases hk : (k' == k) = true
    · rw [if_pos hk] at h
      cases h
      simp [depthD]
    · rw [if_neg hk] at h
      calc depthV v ≤ depthD rest := ih h
        _ ≤ depthD (.cons k' v' rest) := by simp [depthD]

theorem groupRewrite_depth (d : PyDict) (ak rk : String) (nv : PyDict)
    (hmem : (dmem ak d || dmem rk d) = true)
    (h : groupRewrite d ak rk = .ok nv) :
    depthV (.dict nv) < depthV (.dict d) := by
  unfold groupRewrite at h
  rcases hak : dget d ak with _ | va
  · rw [hak] at h
    rcases hrk : dget d rk with _ | vr
    · rw [hrk] at h
      exfalso
      rw [dmem_eq_isSome_dget, dmem_eq_isSome_dget, hak, hrk] at hmem
      simp at hmem
    · rw [hrk] at h
      cases vr with
      | list clears =>
        simp only at h
        cases h
        have h1 : (1 : Nat) ≤ depthD d := by
          have := depthV_dget_le d rk (.list clears) hrk
          simp only [depthV] at this
          omega
        simp only [depthV, depthD_mapClears]
        omega
      | none => simp at h
      | bool b => simp at h
      | num n => simp at h
      | str s => simp at h
      | dict xs => simp at h
  · rw [hak] at h
    cases va with
    | dict adds =>
      have hadds : depthD adds + 1 ≤ depthD d := by
        have := depthV_dget_le d ak (.dict adds) hak
        simp only [depthV] at this
        omega
      rcases hrk : dget d rk with _ | vr
      · rw [hrk] at h
        simp only at h
        cases h
        simp only [depthV, depthD_mapAdds]
        omega
      · rw [hrk] at h
        cases vr with
        | list clears =>
          simp only at h
          cases h
          simp only [depthV, depthD_dappend, depthD_mapAdds, depthD_mapClears]
          omega
        | none => simp at h
        | bool b => simp at h
        | num n => simp at h
        | str s => simp at h
        | dict xs => simp at h
    | none => simp at h
    | bool b => simp at h
    | num n => simp at h
    | str s => simp at h
    | list xs => simp at h

/-- With any two sufficient fuels and any two defaults, `applyFuel`
computes the same result on a non-`True` value: the `default` argument is
only consulted at a literal `True`, and the rewrite steps only ever
recurse on dictionaries. -/
theorem applyFuel_congr (idx : String → List String) (store : Store) :
    ∀ (k : Nat) (v : PyVal), depthV v ≤ k → v ≠ .bool true →
    ∀ (n m : Nat) (d₁ d₂ : PyVal) (coll : Option String)
      (act : Option ActionClass) (tgt : Option Target),
      depthV v < n → depthV v < m →
      applyFuel idx store n coll v d₁ act tgt
        = applyFuel idx store m coll v d₂ act tgt := by
  intro k
  induction k with
  | zero =>
    intro v hk hv n m d₁ d₂ coll act tgt hn hm
    obtain ⟨n', rfl⟩ : ∃ n', n = n' + 1 := ⟨n - 1, by omega⟩
    obtain ⟨m', rfl⟩ : ∃ m', m = m' + 1 := ⟨m - 1, by omega⟩
    cases v with
    | none => rfl
    | bool b => cases b with
      | false => rfl
      | true => exact absurd rfl hv
    | num n => rfl
    | str s => rfl
    | list xs => simp [depthV] at hk
    | dict d => simp [depthV] at hk
  | succ k ih =>
    intro v hk hv n m d₁ d₂ coll act tgt hn hm
    obtain ⟨n', rfl⟩ : ∃ n', n = n' + 1 := ⟨n - 1, by omega⟩
    obtain ⟨m', rfl⟩ : ∃ m', m = m' + 1 := ⟨m - 1, by omega⟩
    cases v with
    | none => rfl
    | bool b => cases b with
      | false => rfl
      | true => exact absurd rfl hv
    | num n => rfl
    | str s => rfl
    | list xs => rfl
    | dict d =>
      simp only [applyFuel]
      by_cases h1 : (dmem "set" d || dmem "clear" d) = true
      · rw [if_pos h1, if_pos h1]
        rcases hgr : groupRewrite d "set" "clear" with e | nv
        · rfl
        · have hd := groupRewrite_depth d "set" "clear" nv h1 hgr
          simp only [depthV] at hk hn hm hd ⊢
          exact ih (.dict nv) (by simp [depthV]; omega) (by simp)
            n' m' d₁ d₂ coll act tgt (by simp [depthV]; omega)
            (by simp [depthV]; omega)
      · rw [if_neg h1, if_neg h1]
        by_cases h2 : (dmem "+" d || dmem "-" d) = true
        · rw [if_pos h2, if_pos h2]
          rcases hgr : groupRewrite d "+" "-" with e | nv
          · rfl
          · have hd := groupRewrite_depth d "+" "-" nv h2 hgr
            simp only [depthV] at hk hn hm hd ⊢
            exact ih (.dict nv) (by simp [depthV]; omega) (by simp)
              n' m' d₁ d₂ coll act tgt (by simp [depthV]; omega)
              (by simp [depthV]; omega)
        · rw [if_neg h2, if_neg h2]

/-!
## C7 — resolution of the literal `True`
-/

/-- C7 (amended) — resolving `True` asserts only that the default is not
the literal `True` (`assert default is not True`): with default `True`
the resolution fails fast; with **any** other default — including the
boolean `False`, which the claim says should also fail — it recurses
with the default as the new value and the default slot cleared, so
`resolve(true, defaultOnTrue=D)` is observably identical to
`resolve(D)` whatever default the latter carries. -/
theorem apply_true_default (idx : String → List String) (store : Store)
    (coll : Option String) (act : Option ActionClass) (tgt : Option Target)
    (D D' : PyVal) :
    applyV idx store coll (.bool true) (.bool true) act tgt
      = .error .assertionError
    ∧ (D ≠ .bool true →
       applyV idx store coll (.bool true) D act tgt
         = applyV idx store coll D D' act tgt) := by
  constructor
  · rfl
  · intro h
    have step : applyV idx store coll (.bool true) D act tgt
        = applyFuel idx store (2 * depthV D + 1) coll D .none act tgt := by
      unfold applyV measureA
      have e : depthV (.bool true) + 2 * depthV D + 2 = (2 * depthV D + 1) + 1 := by
        simp [depthV]
      rw [e]
      simp only [applyFuel]
      rw [if_neg h]
    rw [step]
    unfold applyV measureA
    exact applyFuel_congr idx store (depthV D) D le_rfl h
      (2 * depthV D + 1) (depthV D + 2 * depthV D' + 2) .none D' coll act tgt
      (by omega) (by omega)

/-- Witness for `apply_true_default`: with default `False` the resolution
of `True` runs on and yields `None` (both sides of the identity evaluate
to `.ok none`). -/
theorem apply_true_default_witness :
    applyV idxEmpty storeEmpty Option.none (.bool true) (.bool false)
      Option.none Option.none = .ok Option.none
    ∧ applyV idxEmpty storeEmpty Option.none (.bool true) (.bool true)
      Option.none Option.none = .error .assertionError := by
  constructor
  · rw [(apply_true_default idxEmpty storeEmpty Option.none Option.none
      Option.none (.bool false) (.num 7)).2 (by decide)]
    rfl
  · exact (apply_true_default idxEmpty storeEmpty Option.none Option.none
      Option.none (.bool false) (.num 7)).1

/-- C7 counterexample — the claim says a **boolean** default is a
contract violation; the code only rejects the literal `True`: with the
boolean default `False`, `resolve(True, default=False)` succeeds and
yields `None` instead of failing fast. -/
theorem apply_true_bool_default_counterexample :
    applyV idxEmpty storeEmpty Option.none (.bool true) (.bool false)
      Option.none Option.none = .ok Option.none
    ∧ (Except.ok Option.none : Except PyErr (Option MAction))
        ≠ .error .assertionError := by
  exact ⟨rfl, by simp⟩

/-!
## C6 — the `set`/`clear` and `+`/`-` grouping forms
-/

/-- C6 — for any grouped content (`S` the additions, `C` the clears) the
`set`/`clear` form and the `+`/`-` form resolve identically: both are
rewritten to the same flat dictionary (`+`-prefixed adds, `-`-prefixed
clears with `None` values) on which resolution then recurses. -/
theorem group_forms_equiv (idx : String → List String) (store : Store)
    (coll : Option String) (dflt : PyVal) (act : Option ActionClass)
    (tgt : Option Target) (S : PyDict) (C : PyList) :
    applyV idx store coll
        (.dict (.cons "set" (.dict S) (.cons "clear" (.list C) .nil)))
        dflt act tgt
      = applyV idx store coll
          (.dict (.cons "+" (.dict S) (.cons "-" (.list C) .nil)))
          dflt act tgt
    ∧ applyV idx store coll
        (.dict (.cons "set" (.dict S) (.cons "clear" (.list C) .nil)))
        dflt act tgt
      = applyV idx store coll (.dict (dappend (mapAdds S) (mapClears C)))
          dflt act tgt := by
  have step1 : applyV idx store coll
      (.dict (.cons "set" (.dict S) (.cons "clear" (.list C) .nil)))
      dflt act tgt
      = applyFuel idx store
          (depthV (.dict (.cons "set" (.dict S) (.cons "clear" (.list C) .nil)))
            + 2 * depthV dflt + 1)
          coll (.dict (dappend (mapAdds S) (mapClears C))) dflt act tgt := rfl
  have step2 : applyV idx store coll
      (.dict (.cons "+" (.dict S) (.cons "-" (.list C) .nil)))
      dflt act tgt
      = applyFuel idx store
          (depthV (.dict (.cons "+" (.dict S) (.cons "-" (.list C) .nil)))
            + 2 * depthV dflt + 1)
          coll (.dict (dappend (mapAdds S) (mapClears C))) dflt act tgt := rfl
  have hdep : depthV (.dict (dappend (mapAdds S) (mapClears C)))
      < depthV (.dict (.cons "set" (.dict S) (.cons "clear" (.list C) .nil))) := by
    exact groupRewrite_depth _ "set" "clear" _ rfl rfl
  constructor
  · rw [step1, step2]
    rfl
  · rw [step1]
    unfold applyV measureA
    exact applyFuel_congr idx store
      (depthV (.dict (dappend (mapAdds S) (mapClears C))))
      (.dict (dappend (mapAdds S) (mapClears C))) le_rfl (by simp)
      _ _ dflt dflt coll act tgt (by omega) (by omega)


theorem lookupN_bump (sc : List (String × Nat)) (a t : String) :
    lookupN (bump sc a) t = lookupN sc t + (if a = t then 1 else 0) := by
  induction sc with
  | nil =>
    by_cases h : a = t
    · subst h; simp [bump, lookupN]
    · simp [bump, lookupN, h]
  | cons e rest ih =>
    obtain ⟨k, n⟩ := e
    by_cases hk : k = a
    · subst hk
      by_cases ht : k = t
      · subst ht; simp [bump, lookupN]
      · simp [bump, lookupN, ht]
    · by_cases ht : k = t
      · have hta : ¬ t = a := fun h => hk (ht.trans h)
        have hat : ¬ a = t := fun h => hta h.symm
        simp [bump, lookupN, hk, ht, hta, hat]
      · simp [bump, lookupN, hk, ht, ih]

theorem stripScoreAux_spec (idx : String → List String) :
    ∀ (keys : List String) (sc : List (String × Nat)) (sp : Nat),
    (∀ k ∈ keys, k ≠ "") →
    ∃ out, stripScoreAux idx keys sc sp = .ok out
      ∧ (∀ t, lookupN out.1 t
            = lookupN sc t + keys.countP (fun k => scoreKey idx k == some t))
      ∧ out.2 = sp + specialCount keys := by
  intro keys
  induction keys with
  | nil =>
    intro sc sp _
    exact ⟨(sc, sp), rfl, by simp [specialCount], by simp [specialCount]⟩
  | cons k rest ih =>
    intro sc sp hk
    have hne : k ≠ "" := hk k (List.mem_cons_self k rest)
    have hrest : ∀ k' ∈ rest, k' ≠ "" := fun k' h' => hk k' (List.mem_cons_of_mem k h')
    obtain ⟨kd⟩ := k
    rcases kd with _ | ⟨c, cs⟩
    · exact absurd rfl hne
    · have hstep : stripScoreAux idx (String.mk (c :: cs) :: rest) sc sp
          = stripScoreAux idx rest
              (match idx (stripKey (String.mk (c :: cs))) with
               | [a] => bump sc a
               | _ => sc)
              (if c.isAlpha then sp else sp + 1) := rfl
      have hspecial : isSpecialKey (String.mk (c :: cs)) = !c.isAlpha := rfl
      have hcount : specialCount (String.mk (c :: cs) :: rest)
          = (if c.isAlpha then 0 else 1) + specialCount rest := by
        simp only [specialCount, List.countP_cons, hspecial]
        cases c.isAlpha <;> simp <;> omega
      rcases hacts : idx (stripKey (String.mk (c :: cs))) with _ | ⟨a, as⟩
      · obtain ⟨out, h1, h2, h3⟩ := ih sc (if c.isAlpha then sp else sp + 1) hrest
        refine ⟨out, ?_, ?_, ?_⟩
        · rw [hstep, hacts]
          exact h1
        · intro t
          rw [h2 t, List.countP_cons]
          have hsk : scoreKey idx (String.mk (c :: cs)) = Option.none := by
            unfold scoreKey
            rw [hacts]
          simp [hsk]
        · rw [h3, hcount]
          cases c.isAlpha <;> simp <;> omega
      · cases as with
        | nil =>
          obtain ⟨out, h1, h2, h3⟩ := ih (bump sc a) (if c.isAlpha then sp else sp + 1) hrest
          refine ⟨out, ?_, ?_, ?_⟩
          · rw [hstep, hacts]
            exact h1
          · intro t
            rw [h2 t, lookupN_bump, List.countP_cons]
            have hsk : scoreKey idx (String.mk (c :: cs)) = some a := by
              unfold scoreKey
              rw [hacts]
            by_cases hat : a = t
            · subst hat
              simp [hsk]
              omega
            · simp [hsk, hat]
          · rw [h3, hcount]
            cases c.isAlpha <;> simp <;> omega
        | cons b bs =>
          obtain ⟨out, h1, h2, h3⟩ := ih sc (if c.isAlpha then sp else sp + 1) hrest
          refine ⟨out, ?_, ?_, ?_⟩
          · rw [hstep, hacts]
            exact h1
          · intro t
            rw [h2 t, List.countP_cons]
            have hsk : scoreKey idx (String.mk (c :: cs)) = Option.none := by
              unfold scoreKey
              rw [hacts]
            simp [hsk]
          · rw [h3, hcount]
            cases c.isAlpha <;> simp <;> omega

theorem pairLe_refl (a : Nat × String) : pairLe a a := Or.inr ⟨rfl, le_refl _⟩

theorem sortPairs_head_min (l : List (Nat × String)) (p : Nat × String)
    (rest : List (Nat × String)) (h : sortPairs l = p :: rest) :
    p ∈ l ∧ ∀ q ∈ l, pairLe p q := by
  unfold sortPairs at h
  have hsorted := List.sorted_insertionSort pairLe l
  have hperm := List.perm_insertionSort pairLe l
  rw [h] at hsorted hperm
  constructor
  · exact hperm.mem_iff.mp (List.mem_cons_self p rest)
  · intro q hq
    have hq' : q ∈ p :: rest := hperm.mem_iff.mpr hq
    rcases List.mem_cons.mp hq' with rfl | hq2
    · exact pairLe_refl _
    · exact List.rel_of_sorted_cons hsorted q hq2

/-- C3 (amended) — on a flat dictionary, type inference scores **every**
key after stripping a modifier prefix when present (the claim's
restriction to unprefixed keys is refuted by the counterexample): a
(stripped) key mapping to exactly one directive type contributes 1 to
that type's score and all other keys contribute nothing; candidates are
ranked by `(score, type-name)` ascending (the ranked list is sorted
under `pairLe` and is a permutation of the score table) and the head of
the ranking is selected; with no scored candidate the no-action warning
fires and nothing is selected; when the top two ranked entries tie on
score the ambiguity warning fires, selection still proceeding with the
ascending tie-break. -/
theorem inference_scoring (idx : String → List String) (keys : List String)
    (h : ∀ k ∈ keys, k ≠ "") :
    ∃ scores special,
      stripScore idx keys = .ok (scores, special)
      ∧ (∀ t, lookupN scores t
            = keys.countP (fun k => scoreKey idx k == some t))
      ∧ special = specialCount keys
      ∧ List.Sorted pairLe (sortPairs (swapAll scores))
      ∧ List.Perm (sortPairs (swapAll scores)) (swapAll scores)
      ∧ (noActionWarn (sortPairs (swapAll scores)) = true ↔ scores = [])
      ∧ (∀ p rest, sortPairs (swapAll scores) = p :: rest →
           p ∈ swapAll scores ∧ ∀ q ∈ swapAll scores, pairLe p q)
      ∧ (∀ p q rest, sortPairs (swapAll scores) = p :: q :: rest →
           (ambiguousWarn (sortPairs (swapAll scores)) = true ↔ p.1 = q.1)) := by
  obtain ⟨out, h1, h2, h3⟩ := stripScoreAux_spec idx keys [] 0 h
  obtain ⟨scores, special⟩ := out
  refine ⟨scores, special, h1, ?_, by simpa using h3, ?_, ?_, ?_, ?_, ?_⟩
  · intro t
    simpa [lookupN] using h2 t
  · exact List.sorted_insertionSort pairLe (swapAll scores)
  · exact List.perm_insertionSort pairLe (swapAll scores)
  · unfold noActionWarn
    rw [List.isEmpty_iff]
    constructor
    · intro he
      unfold sortPairs at he
      have hperm := List.perm_insertionSort pairLe (swapAll scores)
      rw [he] at hperm
      have : swapAll scores = [] := hperm.symm.eq_nil
      unfold swapAll at this
      exact List.map_eq_nil_iff.mp this
    · intro he
      subst he
      rfl
  · intro p rest hp
    exact sortPairs_head_min _ p rest hp
  · intro p q rest hpq
    rw [hpq]
    unfold ambiguousWarn
    simp

/-- Witness for `inference_scoring` at the concrete index `idxFoo` and
key list `["+foo"]`. -/
theorem inference_scoring_witness :
    (∀ k ∈ (["+foo"] : List String), k ≠ "")
    ∧ (∃ scores special,
        stripScore idxFoo ["+foo"] = .ok (scores, special)
        ∧ (∀ t, lookupN scores t
              = (["+foo"] : List String).countP (fun k => scoreKey idxFoo k == some t))
        ∧ special = specialCount ["+foo"]
        ∧ List.Sorted pairLe (sortPairs (swapAll scores))
        ∧ List.Perm (sortPairs (swapAll scores)) (swapAll scores)
        ∧ (noActionWarn (sortPairs (swapAll scores)) = true ↔ scores = [])
        ∧ (∀ p rest, sortPairs (swapAll scores) = p :: rest →
             p ∈ swapAll scores ∧ ∀ q ∈ swapAll scores, pairLe p q)
        ∧ (∀ p q rest, sortPairs (swapAll scores) = p :: q :: rest →
             (ambiguousWarn (sortPairs (swapAll scores)) = true ↔ p.1 = q.1))) :=
  ⟨by decide, inference_scoring idxFoo ["+foo"] (by decide)⟩

/-- C3 counterexample — the claim says only **unprefixed** keys are
scored, so a dictionary whose sole key is the prefixed `"+foo"` should
score nothing, warn, and infer no type; in the code the key is stripped
to `foo`, scores `mcoast`, and the patch is dispatched to the inferred
`mcoast` class with no warning condition. -/
theorem inference_prefixed_scores_counterexample :
    stripScore idxFoo ["+foo"] = .ok ([("mcoast", 1)], 1)
    ∧ applyV idxFoo storeEmpty Option.none (.dict (.cons "+foo" (.str "x") .nil))
        (.bool true) Option.none (some (.act ⟨.mcoast, .nil⟩))
      = .ok (some ⟨.mcoast, .cons "foo" (.str "x") .nil⟩) := ⟨rfl, rfl⟩

/-!
## C4 — modifier-key contract of the flat-dictionary case, and
## C1 — the bounding-box patch in `Driver.show`
-/

/-- On a dictionary with no grouping key, `_apply` runs the
flat-dictionary branch. -/
theorem applyV_flat (idx : String → List String) (store : Store)
    (coll : Option String) (d : PyDict) (dflt : PyVal)
    (act : Option ActionClass) (tgt : Option Target)
    (h1 : dmem "set" d = false) (h2 : dmem "clear" d = false)
    (h3 : dmem "+" d = false) (h4 : dmem "-" d = false) :
    applyV idx store coll (.dict d) dflt act tgt = applyFlatDict idx d act tgt := by
  unfold applyV measureA
  have e : depthV (.dict d) + 2 * depthV dflt + 2
      = (depthV (.dict d) + 2 * depthV dflt + 1) + 1 := by omega
  rw [e]
  simp only [applyFuel]
  rw [h1, h2, h3, h4]
  simp

/-- C4 — on a flat dictionary (no grouping keys, non-empty keys, and a
type selection that does not itself raise): if at least one key carries a
modifier prefix but not all do, resolution raises the "cannot set some
attributes and override others" contract violation; if **all** keys are
modifier-prefixed but the patch target's class does not match the
selected type, `update` reports no match and the fatal "cannot override
attributes" error is raised.
Claim: "In resolve (_apply) on a flat dictionary, if at least one key
carries a modifier prefix then every key must carry a modifier prefix: a
dictionary mixing modifier-prefixed keys with unprefixed keys (e.g.
{"+colour":"red","fill":"blue"}) raises a contract-violation error, and
when all keys are modifier-prefixed but patching the target reports no
match, a fatal "cannot override" error is raised." -/
theorem flat_dict_modifier_contract (idx : String → List String) (store : Store)
    (coll : Option String) (dflt : PyVal) (act : Option ActionClass)
    (tgt : Option Target) (d : PyDict) (t : MAction) (ec : Option ActionClass)
    (c : ActionClass)
    (hset : dmem "set" d = false) (hclear : dmem "clear" d = false)
    (hplus : dmem "+" d = false) (hminus : dmem "-" d = false)
    (hkeys : ∀ k ∈ dkeys d, k ≠ "") :
    (effAfterScore idx (dkeys d) act = .ok ec →
     0 < specialCount (dkeys d) → specialCount (dkeys d) ≠ dlen d →
     applyV idx store coll (.dict d) dflt act tgt = .error .exceptionMixed)
    ∧ (effAfterScore idx (dkeys d) act = .ok (some c) →
       specialCount (dkeys d) = dlen d → 0 < dlen d →
       instanceOf t.cls c = false →
       applyV idx store coll (.dict d) dflt act (some (.act t))
         = .error .exceptionOverride) := by
  obtain ⟨out, hss, _, hsp⟩ := stripScoreAux_spec idx (dkeys d) [] 0 hkeys
  obtain ⟨scores, special⟩ := out
  simp only at hsp
  have hss' : stripScore idx (dkeys d) = Except.ok (scores, special) := hss
  constructor
  · intro heff hpos hne
    rw [applyV_flat idx store coll d dflt act tgt hset hclear hplus hminus]
    unfold applyFlatDict
    rw [hss']
    unfold effAfterScore at heff
    rw [hss'] at heff
    simp only at heff ⊢
    rw [heff]
    simp only [hsp]
    rw [if_pos (by omega), if_pos (by omega)]
  · intro heff heq hlen hinst
    rw [applyV_flat idx store coll d dflt act (some (.act t)) hset hclear hplus hminus]
    unfold applyFlatDict
    rw [hss']
    unfold effAfterScore at heff
    rw [hss'] at heff
    simp only at heff ⊢
    rw [heff]
    simp only [hsp]
    rw [if_pos (by omega), if_neg (by omega)]
    simp only [targetUpdate, updateRun]
    rw [hinst]
    simp

/-- Witness for `flat_dict_modifier_contract`: the claim's own example
`{"+colour": "red", "fill": "blue"}` raises the mixing violation, and an
all-prefixed patch against an `mcoast` target with `action=mmap` raises
the override violation. -/
theorem flat_dict_modifier_contract_witness :
    applyV idxEmpty storeEmpty Option.none
      (.dict (.cons "+colour" (.str "red") (.cons "fill" (.str "blue") .nil)))
      (.bool true) Option.none (some (.act ⟨.mcoast, .nil⟩))
      = .error .exceptionMixed
    ∧ applyV idxEmpty storeEmpty Option.none
      (.dict (.cons "+colour" (.str "red") .nil))
      (.bool true) (some .mmap) (some (.act ⟨.mcoast, .nil⟩))
      = .error .exceptionOverride := by
  constructor
  · exact (flat_dict_modifier_contract idxEmpty storeEmpty Option.none (.bool true)
      Option.none (some (.act ⟨.mcoast, .nil⟩))
      (.cons "+colour" (.str "red") (.cons "fill" (.str "blue") .nil))
      ⟨.mcoast, .nil⟩ Option.none .mmap rfl rfl rfl rfl (by decide)).1
      rfl (by decide) (by decide)
  · exact (flat_dict_modifier_contract idxEmpty storeEmpty Option.none (.bool true)
      (some .mmap) Option.none
      (.cons "+colour" (.str "red") .nil)
      ⟨.mcoast, .nil⟩ Option.none .mmap rfl rfl rfl rfl (by decide)).2
      rfl (by decide) (by decide) (by decide)

/-- The four `=`-prefixed extent operations evaluate to the
set-if-absent chain. -/
theorem applyUpdateOps_bboxPatch (kw : PyDict) (b : BBox) :
    applyUpdateOps kw (bboxPatchDict b) = .ok (siaChain kw b) := rfl

/-- Extent parameters already present on the projection survive the
bounding-box patch unchanged. -/
theorem dget_siaChain_of_dmem (kw : PyDict) (b : BBox) (p : String)
    (h : dmem p kw = true) : dget (siaChain kw b) p = dget kw p := by
  unfold siaChain
  have m1 := dmem_sia_of_dmem kw "subpage_upper_right_longitude" p b.east h
  have m2 := dmem_sia_of_dmem _ "subpage_upper_right_latitude" p b.north m1
  have m3 := dmem_sia_of_dmem _ "subpage_lower_left_latitude" p b.south m2
  rw [dget_sia_of_dmem _ _ _ _ m3, dget_sia_of_dmem _ _ _ _ m2,
      dget_sia_of_dmem _ _ _ _ m1, dget_sia_of_dmem _ _ _ _ h]

/-- C1 (amended) — in `show`, the accumulated bounding box is expanded by
the margins option and patched onto the projection with **set-if-absent**
(`=`-prefixed) operations, not add-prefixed ones: each of the four extent
parameters is written only when absent, and any extent value already
present on the projection takes precedence over the accumulated box
(the original claim's "always overrides" is refuted by the
counterexample).  Hypotheses: the type selected by scoring the four
patch keys (with the explicit `action=mmap` as fallback) resolves to a
class the projection is an instance of, as with a projection built by
`show`'s cylindrical default. -/
theorem show_patch_set_if_absent (idx : String → List String) (store : Store)
    (proj : MAction) (bb : BBox) (m : Int) (c : ActionClass)
    (heff : effAfterScore idx
        ["=subpage_upper_right_longitude", "=subpage_upper_right_latitude",
         "=subpage_lower_left_latitude", "=subpage_lower_left_longitude"]
        (some .mmap) = .ok (some c))
    (hinst : instanceOf proj.cls c = true) :
    showBboxStep idx store (some proj) bb m
      = .ok (some ⟨proj.cls, siaChain proj.kwargs (add_margins bb m)⟩)
    ∧ (∀ p, dmem p proj.kwargs = true →
        dget (siaChain proj.kwargs (add_margins bb m)) p = dget proj.kwargs p) := by
  refine ⟨?_, fun p hp => dget_siaChain_of_dmem proj.kwargs (add_margins bb m) p hp⟩
  unfold showBboxStep
  dsimp only
  simp only [Option.map_some']
  rw [applyV_flat idx store Option.none (bboxPatchDict (add_margins bb m))
    (.bool true) (some .mmap) (some (.act proj)) rfl rfl rfl rfl]
  have hdk : dkeys (bboxPatchDict (add_margins bb m))
      = ["=subpage_upper_right_longitude", "=subpage_upper_right_latitude",
         "=subpage_lower_left_latitude", "=subpage_lower_left_longitude"] := rfl
  obtain ⟨out, hss, _, hsp⟩ := stripScoreAux_spec idx
    ["=subpage_upper_right_longitude", "=subpage_upper_right_latitude",
     "=subpage_lower_left_latitude", "=subpage_lower_left_longitude"] [] 0
    (by decide)
  obtain ⟨scores, special⟩ := out
  simp only at hsp
  have hsp4 : special = 4 := by
    rw [hsp]
    rfl
  have hss' : stripScore idx (dkeys (bboxPatchDict (add_margins bb m)))
      = Except.ok (scores, special) := by
    rw [hdk]
    exact hss
  unfold effAfterScore at heff
  rw [hdk] at *
  rw [show stripScore idx
      ["=subpage_upper_right_longitude", "=subpage_upper_right_latitude",
       "=subpage_lower_left_latitude", "=subpage_lower_left_longitude"]
      = Except.ok (scores, special) from hss] at heff
  unfold applyFlatDict
  rw [show stripScore idx
      (dkeys (bboxPatchDict (add_margins bb m)))
      = Except.ok (scores, special) from hss]
  simp only at heff ⊢
  rw [heff, hsp4]
  dsimp only
  rw [if_pos (show (4 : Nat) ≠ 0 by decide)]
  rw [if_neg (show ¬ ((4 : Nat) ≠ dlen (bboxPatchDict (add_margins bb m)))
        from fun hx => hx rfl)]
  simp only [targetUpdate, updateRun]
  rw [hinst]
  simp only [if_pos]
  rw [applyUpdateOps_bboxPatch proj.kwargs (add_margins bb m)]

/-- Witness for `show_patch_set_if_absent` on an `mmap` projection with
one extent parameter already set. -/
theorem show_patch_set_if_absent_witness :
    showBboxStep idxEmpty storeEmpty
      (some ⟨.mmap, .cons "subpage_upper_right_longitude" (.num 5) .nil⟩)
      ⟨10, -20, -10, 20⟩ 2
      = .ok (some ⟨.mmap,
          siaChain (.cons "subpage_upper_right_longitude" (.num 5) .nil)
            (add_margins ⟨10, -20, -10, 20⟩ 2)⟩)
    ∧ (∀ p, dmem p (PyDict.cons "subpage_upper_right_longitude" (.num 5) .nil) = true →
        dget (siaChain (.cons "subpage_upper_right_longitude" (.num 5) .nil)
            (add_margins ⟨10, -20, -10, 20⟩ 2)) p
          = dget (.cons "subpage_upper_right_longitude" (.num 5) .nil) p) :=
  show_patch_set_if_absent idxEmpty storeEmpty
    ⟨.mmap, .cons "subpage_upper_right_longitude" (.num 5) .nil⟩
    ⟨10, -20, -10, 20⟩ 2 .mmap rfl rfl

/-- C1 counterexample — the claim says the accumulated box always
overrides extent values already present: with
`subpage_upper_right_longitude = 5` already on the projection and an
accumulated box with east `20`, the patch leaves `5` in place (the other
three parameters, being absent, are filled in). -/
theorem show_patch_override_counterexample :
    showBboxStep idxEmpty storeEmpty
      (some ⟨.mmap, .cons "subpage_upper_right_longitude" (.num 5) .nil⟩)
      ⟨10, -20, -10, 20⟩ 0
      = .ok (some ⟨.mmap, listToD
          [("subpage_upper_right_longitude", .num 5),
           ("subpage_upper_right_latitude", .num 10),
           ("subpage_lower_left_latitude", .num (-10)),
           ("subpage_lower_left_longitude", .num (-20))]⟩)
    ∧ dget (listToD
          [("subpage_upper_right_longitude", .num 5),
           ("subpage_upper_right_latitude", .num 10),
           ("subpage_lower_left_latitude", .num (-10)),
           ("subpage_lower_left_longitude", .num (-20))])
        "subpage_upper_right_longitude" = some (.num 5)
    ∧ PyVal.num 5 ≠ PyVal.num 20 := ⟨rfl, rfl, by decide⟩

/-!
## C9 — the freshly constructed Driver, and C10 — `plot_csv`
-/

/-- C9 — `Driver.__init__` invokes `background(True)` and
`foreground(True)`, which resolve the preset names
`"default-background"` / `"default-foreground"` in the `"layers"`
namespace; when the preset store holds these entries (each declaring
exactly one directive type), the fresh Driver's background and
foreground singleton slots are already populated (`some …`, not
absent). -/
theorem driver_init_populates (idx : String → List String) (store : Store)
    (mb mf : PyDict) (nb nf : String) (pb pf : PyDict) (cb cf : ActionClass)
    (hb : store "layers" "default-background" = some mb)
    (hbk : dkeys mb = [nb]) (hbc : classOfName nb = some cb)
    (hbp : dget mb nb = some (.dict pb))
    (hf : store "layers" "default-foreground" = some mf)
    (hfk : dkeys mf = [nf]) (hfc : classOfName nf = some cf)
    (hfp : dget mf nf = some (.dict pf)) :
    driverInit idx store = .ok { baseDriver with
      background := some ⟨cb, pb⟩, foreground := some ⟨cf, pf⟩ } := by
  have h1 : driverBackground idx store baseDriver (.bool true)
      = .ok { baseDriver with background := some ⟨cb, pb⟩ } := by
    unfold driverBackground
    rw [show applyV idx store (some "layers") (.bool true)
        (.str "default-background") Option.none
        (baseDriver.background.map Target.act)
        = applyStr store (some "layers") "default-background" from rfl]
    simp only [applyStr, hb, hbk, hbc, hbp]
  have h2 : driverForeground idx store
      { baseDriver with background := some ⟨cb, pb⟩ } (.bool true)
      = .ok { baseDriver with
          background := some ⟨cb, pb⟩, foreground := some ⟨cf, pf⟩ } := by
    unfold driverForeground
    rw [show applyV idx store (some "layers") (.bool true)
        (.str "default-foreground") Option.none
        (({ baseDriver with background := some ⟨cb, pb⟩ } : DriverState).foreground.map Target.act)
        = applyStr store (some "layers") "default-foreground" from rfl]
    simp only [applyStr, hf, hfk, hfc, hfp]
  unfold driverInit
  rw [h1]
  exact h2

/-- Witness for `driver_init_populates` with the concrete store
`storeDefaults`. -/
theorem driver_init_populates_witness :
    driverInit idxEmpty storeDefaults = .ok { baseDriver with
      background := some ⟨.mcoast, listToD [("map_coastline_land_shade", .bool true)]⟩,
      foreground := some ⟨.mcoast, listToD [("map_grid", .bool false)]⟩ } :=
  driver_init_populates idxEmpty storeDefaults
    (listToD [("mcoast", .dict (listToD [("map_coastline_land_shade", .bool true)]))])
    (listToD [("mcoast", .dict (listToD [("map_grid", .bool false)]))])
    "mcoast" "mcoast"
    (listToD [("map_coastline_land_shade", .bool true)])
    (listToD [("map_grid", .bool false)])
    .mcoast .mcoast rfl rfl rfl rfl rfl rfl rfl rfl

/-- C10 — `plot_csv(path, variable)` ignores `variable` entirely (the
result is literally the same function of the remaining arguments), and
for every input appends the fixed `mtable` directive (latitude column
"1", longitude column "2", value column "3", header row 0, identifier
type "index") and then unconditionally replaces the new layer's style
with the resolution of the preset `"default-style-observations"`. -/
theorem plot_csv_fixed (idx : String → List String) (store : Store)
    (st : DriverState) (path v1 v2 : String)
    (ms : PyDict) (ns : String) (ps : PyDict) (cs : ActionClass)
    (hs : store "styles" "default-style-observations" = some ms)
    (hsk : dkeys ms = [ns]) (hsc : classOfName ns = some cs)
    (hsp : dget ms ns = some (.dict ps)) :
    plot_csv idx store st path v1
      = .ok { st with layers := st.layers
          ++ [⟨some (mtableCsv path), some ⟨cs, ps⟩⟩] }
    ∧ plot_csv idx store st path v1 = plot_csv idx store st path v2 := by
  refine ⟨?_, rfl⟩
  unfold plot_csv driverStyle push_layer
  rw [List.getLast?_concat]
  dsimp only
  rw [show applyV idx store (some "styles") (.str "default-style-observations")
      (.bool true) Option.none
      (some (Target.layer ⟨some (mtableCsv path), default_style (mtableCsv path).cls⟩))
      = applyStr store (some "styles") "default-style-observations" from rfl]
  simp only [applyStr, hs, hsk, hsc, hsp]
  rw [List.dropLast_concat]

/-- Witness for `plot_csv_fixed` with the concrete store
`storeDefaults` (two different `variable` arguments). -/
theorem plot_csv_fixed_witness :
    plot_csv idxEmpty storeDefaults baseDriver "x.csv" "temp"
      = .ok { baseDriver with layers := baseDriver.layers
          ++ [⟨some (mtableCsv "x.csv"),
               some ⟨.msymb, listToD [("symbol_type", .str "marker")]⟩⟩] }
    ∧ plot_csv idxEmpty storeDefaults baseDriver "x.csv" "temp"
      = plot_csv idxEmpty storeDefaults baseDriver "x.csv" "other" :=
  plot_csv_fixed idxEmpty storeDefaults baseDriver "x.csv" "temp" "other"
    (listToD [("msymb", .dict (listToD [("symbol_type", .str "marker")]))])
    "msymb" (listToD [("symbol_type", .str "marker")]) .msymb
    rfl rfl rfl rfl
